import Mathlib

/-!
Verification of the tool-calling orchestration engine of the agentic-garden
repository.  The definitions below are shallow embeddings of the Python
sources:

* `src/clients/cli_agent/src/agent.py` — the conversation state machine
  (`call_inference_model`, `call_tool`, `should_continue`, the hardcoded
  tool specs);
* `src/clients/cli_agent/src/mcp_client.py` — the HTTP tool client
  (`MCPClient.__init__`, `_discover_tools`, `call_tool`);
* `src/clean-mcp/mcp-client.py` — the line-delimited client's `chat_loop`
  history truncation.

JSON values are modelled by the inductive `JVal`; numbers are rationals
(the claims under study never exercise float rounding).  `loads` models
Python's `json.loads` closely enough to decide the claims: it skips JSON
whitespace, parses objects (later duplicate keys overwrite earlier ones, as
Python dicts do), arrays, strings with the standard escapes, numbers and
the three literals, and rejects any trailing non-whitespace — the point on
which claim C2 turns.
-/

/-- JSON values as produced by a `json.loads` call.  Numbers are modelled
as rationals; object fields keep insertion order, with at most one binding
per key (Python dict semantics). -/
inductive JVal where
  | null : JVal
  | bool (b : Bool) : JVal
  | num (q : ℚ) : JVal
  | str (s : String) : JVal
  | arr (items : List JVal) : JVal
  | obj (fields : List (String × JVal)) : JVal

/-- Insert a key/value binding with Python-dict semantics: an existing key
is overwritten in place, a new key is appended at the end. -/
def insertField : List (String × JVal) → String → JVal → List (String × JVal)
  | [], k, v => [(k, v)]
  | (k1, v1) :: rest, k, v =>
      if k1 = k then (k1, v) :: rest else (k1, v1) :: insertField rest k v

/-- Look up a key in an object's field list (Python `d[k]` / `k in d`). -/
def lookupField : List (String × JVal) → String → Option JVal
  | [], _ => none
  | (k1, v1) :: rest, k => if k1 = k then some v1 else lookupField rest k

/-- Python `d.get(k, default)`. -/
def lookupD (fields : List (String × JVal)) (k : String) (dflt : JVal) : JVal :=
  match lookupField fields k with
  | some v => v
  | none => dflt

/-- The four whitespace characters `json.loads` skips between tokens. -/
def isJsonWs (c : Char) : Bool :=
  c = ' ' || c = '\t' || c = '\n' || c = '\r'

/-- Skip JSON whitespace. -/
def skipWs (cs : List Char) : List Char := cs.dropWhile isJsonWs

/-- Numeric value of a decimal digit character. -/
def digitsToNat (ds : List Char) : ℕ :=
  ds.foldl (fun n c => 10 * n + (c.toNat - 48)) 0

/-- Value of a hexadecimal digit character, if it is one. -/
def hexDigitVal (c : Char) : Option ℕ :=
  if c.isDigit then some (c.toNat - 48)
  else if 'a' ≤ c ∧ c ≤ 'f' then some (c.toNat - 87)
  else if 'A' ≤ c ∧ c ≤ 'F' then some (c.toNat - 55)
  else none

/-- Parse a JSON number (optional minus, digits, optional fraction,
optional exponent) from the head of the character list, returning its
rational value and the unconsumed rest. -/
def parseNumber (cs : List Char) : Option (ℚ × List Char) :=
  let signed : Bool × List Char :=
    match cs with
    | c :: rest => if c = '-' then (true, rest) else (false, cs)
    | [] => (false, cs)
  let ds := signed.2.takeWhile Char.isDigit
  let afterInt := signed.2.dropWhile Char.isDigit
  if ds.isEmpty then none
  else
    let ip : ℚ := (digitsToNat ds : ℚ)
    let withFrac : ℚ × List Char :=
      match afterInt with
      | '.' :: rest =>
          let fd := rest.takeWhile Char.isDigit
          if fd.isEmpty then (ip, afterInt)
          else (ip + (digitsToNat fd : ℚ) / ((10 : ℚ) ^ fd.length),
                rest.dropWhile Char.isDigit)
      | _ => (ip, afterInt)
    let withExp : ℚ × List Char :=
      match withFrac.2 with
      | e :: rest =>
          if e = 'e' ∨ e = 'E' then
            let esigned : Bool × List Char :=
              match rest with
              | c2 :: rest2 =>
                  if c2 = '-' then (true, rest2)
                  else if c2 = '+' then (false, rest2)
                  else (false, rest)
              | [] => (false, rest)
            let eds := esigned.2.takeWhile Char.isDigit
            if eds.isEmpty then withFrac
            else
              let ex : ℤ :=
                if esigned.1 then -(digitsToNat eds : ℤ) else (digitsToNat eds : ℤ)
              (withFrac.1 * (10 : ℚ) ^ ex, esigned.2.dropWhile Char.isDigit)
          else withFrac
      | [] => withFrac
    some (if signed.1 then -withExp.1 else withExp.1, withExp.2)

/-- Parse the body of a JSON string (the opening quote already consumed),
handling the standard escapes.  Returns the decoded characters and the rest
after the closing quote. -/
def parseStringChars : ℕ → List Char → Option (List Char × List Char)
  | 0, _ => none
  | _, [] => none
  | fuel + 1, c :: rest =>
      if c = '"' then some ([], rest)
      else if c = '\\' then
        match rest with
        | [] => none
        | e :: rest2 =>
            let decoded : Option (Char × List Char) :=
              if e = '"' then some ('"', rest2)
              else if e = '\\' then some ('\\', rest2)
              else if e = '/' then some ('/', rest2)
              else if e = 'b' then some (Char.ofNat 8, rest2)
              else if e = 'f' then some (Char.ofNat 12, rest2)
              else if e = 'n' then some ('\n', rest2)
              else if e = 'r' then some ('\r', rest2)
              else if e = 't' then some ('\t', rest2)
              else if e = 'u' then
                match rest2 with
                | h1 :: h2 :: h3 :: h4 :: rest3 =>
                    match hexDigitVal h1, hexDigitVal h2, hexDigitVal h3, hexDigitVal h4 with
                    | some a, some b, some c3, some d =>
                        some (Char.ofNat (4096 * a + 256 * b + 16 * c3 + d), rest3)
                    | _, _, _, _ => none
                | _ => none
              else none
            match decoded with
            | some (ch, rest3) =>
                match parseStringChars fuel rest3 with
                | some (tail, rest4) => some (ch :: tail, rest4)
                | none => none
            | none => none
      else
        match parseStringChars fuel rest with
        | some (tail, rest3) => some (c :: tail, rest3)
        | none => none

mutual

/-- Parse one JSON value from the head of the input (leading whitespace
allowed), returning it and the unconsumed rest. -/
def parseVal : ℕ → List Char → Option (JVal × List Char)
  | 0, _ => none
  | fuel + 1, cs =>
      match skipWs cs with
      | [] => none
      | c :: rest =>
          if c = '\x7b' then
            match skipWs rest with
            | '\x7d' :: rest2 => some (.obj [], rest2)
            | rest2 =>
                match parseFields fuel rest2 [] with
                | some (fields, rest3) => some (.obj fields, rest3)
                | none => none
          else if c = '[' then
            match skipWs rest with
            | ']' :: rest2 => some (.arr [], rest2)
            | rest2 =>
                match parseItems fuel rest2 [] with
                | some (items, rest3) => some (.arr items, rest3)
                | none => none
          else if c = '"' then
            match parseStringChars (rest.length + 1) rest with
            | some (chars, rest2) => some (.str (String.mk chars), rest2)
            | none => none
          else if c = 't' then
            match rest with
            | 'r' :: 'u' :: 'e' :: rest2 => some (.bool true, rest2)
            | _ => none
          else if c = 'f' then
            match rest with
            | 'a' :: 'l' :: 's' :: 'e' :: rest2 => some (.bool false, rest2)
            | _ => none
          else if c = 'n' then
            match rest with
            | 'u' :: 'l' :: 'l' :: rest2 => some (.null, rest2)
            | _ => none
          else
            match parseNumber (c :: rest) with
            | some (q, rest2) => some (.num q, rest2)
            | none => none

/-- Parse the fields of a JSON object after its opening brace (at least one
field; the empty object is handled by the caller).  Later duplicate keys
overwrite earlier ones, as `json.loads` builds a Python dict. -/
def parseFields : ℕ → List Char → List (String × JVal) → Option (List (String × JVal) × List Char)
  | 0, _, _ => none
  | fuel + 1, cs, acc =>
      match skipWs cs with
      | '"' :: rest =>
          match parseStringChars (rest.length + 1) rest with
          | some (keyChars, rest2) =>
              match skipWs rest2 with
              | ':' :: rest3 =>
                  match parseVal fuel rest3 with
                  | some (v, rest4) =>
                      let acc2 := insertField acc (String.mk keyChars) v
                      match skipWs rest4 with
                      | ',' :: rest5 => parseFields fuel rest5 acc2
                      | '\x7d' :: rest5 => some (acc2, rest5)
                      | _ => none
                  | none => none
              | _ => none
          | none => none
      | _ => none

/-- Parse the items of a JSON array after its opening bracket (at least one
item; the empty array is handled by the caller). -/
def parseItems : ℕ → List Char → List JVal → Option (List JVal × List Char)
  | 0, _, _ => none
  | fuel + 1, cs, acc =>
      match parseVal fuel cs with
      | some (v, rest) =>
          match skipWs rest with
          | ',' :: rest2 => parseItems fuel rest2 (acc ++ [v])
          | ']' :: rest2 => some (acc ++ [v], rest2)
          | _ => none
      | none => none

end

/-- Model of Python `json.loads`: parse one value and require that nothing
but whitespace follows it; any leftover input is a `JSONDecodeError`,
modelled as `none`. -/
def loads (s : String) : Option JVal :=
  match parseVal (s.length + 1) s.data with
  | some (v, rest) => if (skipWs rest).isEmpty then some v else none
  | none => none

/-- Model of Python `float(s)` on a string: optional surrounding
whitespace, optional sign, then a decimal literal (digits with optional
fraction and exponent, or a leading-dot fraction).  Infinities and NaN are
not representable here and are outside every verified path. -/
def parsePyFloat (s : String) : Option ℚ :=
  let cs := skipWs s.data
  let signed : Bool × List Char :=
    match cs with
    | c :: rest =>
        if c = '-' then (true, rest)
        else if c = '+' then (false, rest)
        else (false, cs)
    | [] => (false, cs)
  let ds := signed.2.takeWhile Char.isDigit
  let afterInt := signed.2.dropWhile Char.isDigit
  let mantissa : Option (ℚ × List Char) :=
    match afterInt with
    | '.' :: rest =>
        let fd := rest.takeWhile Char.isDigit
        if ds.isEmpty ∧ fd.isEmpty then none
        else some ((digitsToNat ds : ℚ) + (digitsToNat fd : ℚ) / ((10 : ℚ) ^ fd.length),
                   rest.dropWhile Char.isDigit)
    | _ => if ds.isEmpty then none else some ((digitsToNat ds : ℚ), afterInt)
  match mantissa with
  | none => none
  | some (m, rest) =>
      let withExp : Option (ℚ × List Char) :=
        match rest with
        | e :: rest2 =>
            if e = 'e' ∨ e = 'E' then
              let esigned : Bool × List Char :=
                match rest2 with
                | c2 :: rest3 =>
                    if c2 = '-' then (true, rest3)
                    else if c2 = '+' then (false, rest3)
                    else (false, rest2)
                | [] => (false, rest2)
              let eds := esigned.2.takeWhile Char.isDigit
              if eds.isEmpty then none
              else
                let ex : ℤ :=
                  if esigned.1 then -(digitsToNat eds : ℤ) else (digitsToNat eds : ℤ)
                some (m * (10 : ℚ) ^ ex, esigned.2.dropWhile Char.isDigit)
            else some (m, rest)
        | [] => some (m, rest)
      match withExp with
      | none => none
      | some (q, rest2) =>
          if (skipWs rest2).isEmpty then some (if signed.1 then -q else q) else none

/-- Model of Python `float(v)` applied to a decoded JSON value: numbers
pass through, booleans coerce to 1/0, numeric-looking strings parse, and
everything else (`None`, lists, dicts) raises `TypeError`, modelled as
`none`.  A non-numeric string raises `ValueError`, also `none`. -/
def pyFloat : JVal → Option ℚ
  | .num q => some q
  | .bool b => some (if b then 1 else 0)
  | .str s => parsePyFloat s
  | _ => none

/-!
## The conversation state machine of `src/clients/cli_agent/src/agent.py`
-/

/-- A LangChain tool call as it appears on an `AIMessage`.  LangChain
validates each entry to have a string `name` and a dict `args`
(`langchain_core.messages.ToolCall`), so only such calls ever enter the
history. -/
structure ToolCall where
  id : String
  name : String
  args : List (String × JVal)

/-- One conversation message: `HumanMessage`, `AIMessage` (with its
tool-call list) or `ToolMessage` (a tool result carrying the id of the
call it answers). -/
inductive Message where
  | human (content : String) : Message
  | ai (content : String) (tool_calls : List ToolCall) : Message
  | tool (content : String) (tool_call_id : String) : Message

/-- Holds exactly on tool-result messages (`isinstance(m, ToolMessage)`). -/
def isToolResult : Message → Bool
  | .tool _ _ => true
  | _ => false

/-- Embedded tool-call detection, `agent.py` lines 111–133: when the model
returned no structured call, try `json.loads` on the whole content; if it
yields a dict with both a `name` and a `parameters` key, build a tool call
from them, re-parsing `parameters` with `json.loads` when it is a string.
Any parse failure is swallowed (`except ... : pass`) and the content stays
a plain answer.  The fresh id (`call_<uuid4>` in the source) is passed in
as `fid`.  Shapes that LangChain would reject when the `AIMessage` is
constructed (non-string name, non-dict args) do not produce a call. -/
def detectEmbedded (fid : String) (content : String) : Option ToolCall :=
  match loads content with
  | some (.obj fields) =>
      match lookupField fields "name", lookupField fields "parameters" with
      | some (.str nm), some ps =>
          match ps with
          | .str s =>
              match loads s with
              | some (.obj args) => some ⟨fid, nm, args⟩
              | _ => none
          | .obj args => some ⟨fid, nm, args⟩
          | _ => none
      | _, _ => none
  | _ => none

/-- What the inference endpoint gave back for one model turn:
`MCPClient.call_tool` returns a plain string on any transport failure
(`err`), otherwise the reply's `choices[0].message` content and structured
tool-call list (`ok`). -/
inductive InferResponse where
  | err (s : String) : InferResponse
  | ok (content : String) (tool_calls : List ToolCall) : InferResponse

/-- The assistant message `call_inference_model` appends, `agent.py` lines
95–133: a fixed apology on transport error; a content-free message keeping
the structured calls when there are any; otherwise embedded detection on
the content, falling back to the content as a plain answer. -/
def inferMessage (fid : String) (r : InferResponse) : Message :=
  match r with
  | .err _ => .ai "I\x27m sorry, I encountered an error. Please check the logs." []
  | .ok content tcs =>
      match tcs with
      | _ :: _ => .ai "" tcs
      | [] =>
          match detectEmbedded fid content with
          | some tc => .ai "" [tc]
          | none => .ai content []

/-- One hardcoded tool spec from `agent.py` lines 20–45. -/
structure ToolSpec where
  name : String
  description : String
  parameters : JVal

/-- Parameter schema shared by `add` and `subtract`: two numbers, both
required. -/
def twoNumberSchema : JVal :=
  .obj [("type", .str "object"),
        ("properties", .obj [("a", .obj [("type", .str "number")]),
                             ("b", .obj [("type", .str "number")])]),
        ("required", .arr [.str "a", .str "b"])]

/-- The hardcoded `tools` list of `agent.py`. -/
def agentTools : List ToolSpec :=
  [⟨"add", "Adds two numbers together.", twoNumberSchema⟩,
   ⟨"subtract", "Subtracts the second number from the first.", twoNumberSchema⟩]

/-- Source `agent.py` line 85: tool specs are sent unless the immediately
preceding message is a `ToolMessage`.  The source indexes `messages[-1]`,
so the history is nonempty whenever this runs; on an empty history the
model returns `true` (vacuously, no last message is a tool result). -/
def should_send_tools (msgs : List Message) : Bool :=
  match msgs.getLast? with
  | some m => !(isToolResult m)
  | none => true

/-- The `tools` / `tool_choice` kwargs attached to the completion request,
`agent.py` lines 87–93: present exactly when `should_send_tools`. -/
def requestTools (msgs : List Message) : Option (List ToolSpec × String) :=
  if should_send_tools msgs then some (agentTools, "auto") else none

/-- The conditional edge `should_continue`, `agent.py` lines 170–174. -/
def should_continue (msgs : List Message) : String :=
  match msgs.getLast? with
  | some (.ai _ (_ :: _)) => "tools"
  | _ => "end"

/-- The calculator-side `MCPClient` state: its discovered tool names
(`self.tools` keys), its base URL, and the network POST abstracted as a
function from tool name and JSON body to the final result string (the
source returns `response.json()` or an error string; the state machine
immediately applies `str`, so the composition is modelled). -/
structure CalcClient where
  tools : List String
  serverUrl : String
  post : String → List (String × JVal) → String

/-- One actually issued HTTP POST to a tool endpoint. -/
structure PostCall where
  name : String
  args : List (String × JVal)

/-- Model of `MCPClient.call_tool`, `mcp_client.py` lines 71–83: an unknown tool
name yields an error string without any network activity; otherwise the
POST is issued.  Returns the result string and the list of POSTs made. -/
def clientCallTool (c : CalcClient) (name : String) (args : List (String × JVal)) :
    String × List PostCall :=
  if c.tools.contains name then (c.post name args, [⟨name, args⟩])
  else ("Error: Tool \x27" ++ name ++ "\x27 not found on server " ++ c.serverUrl ++ ".", [])

/-- The fixed validation-failure message of `agent.py` line 158. -/
def invalidParamsMsg (name : String) : String :=
  "Error: Invalid parameters for tool \x27" ++ name ++ "\x27. Parameters must be numbers."

/-- The not-found message of `agent.py` line 163. -/
def toolNotFoundMsg (name : String) : String :=
  "Error: Tool \x27" ++ name ++ "\x27 not found."

/-- The dispatch body of the `tools` node `call_tool`, `agent.py` lines
150–163, on the one tool call it processes: `add`/`subtract` go through
`float` coercion of `args.get("a", 0)` / `args.get("b", 0)` (failure
producing `invalidParamsMsg` without executing the tool), other registered
names are forwarded verbatim, and unknown names produce `toolNotFoundMsg`
without any transport call.  Returns the result string and the POSTs
issued. -/
def call_tool_result (c : CalcClient) (tc : ToolCall) : String × List PostCall :=
  if tc.name = "add" ∨ tc.name = "subtract" then
    match pyFloat (lookupD tc.args "a" (.num 0)) with
    | none => (invalidParamsMsg tc.name, [])
    | some a =>
        match pyFloat (lookupD tc.args "b" (.num 0)) with
        | none => (invalidParamsMsg tc.name, [])
        | some b => clientCallTool c tc.name [("a", .num a), ("b", .num b)]
  else if c.tools.contains tc.name then
    clientCallTool c tc.name tc.args
  else
    (toolNotFoundMsg tc.name, [])

/-- The `tools` node `call_tool`, `agent.py` lines 137–166: a guard
returning the state unchanged unless the last message is an `AIMessage`
with tool calls; then only the first call is processed through
`call_tool_result` and a `ToolMessage` with that result and the call's id
is appended.  Returns the new history and the POSTs issued. -/
def call_tool (c : CalcClient) (msgs : List Message) : List Message × List PostCall :=
  match msgs.getLast? with
  | some (.ai _ (tc :: _)) =>
      (msgs ++ [.tool (call_tool_result c tc).1 tc.id], (call_tool_result c tc).2)
  | _ => (msgs, [])

/-- The compiled graph loop from the `llm` entry point: append the model
message; if `should_continue` routes to `tools`, run `call_tool` and go
back to `llm` (edge `tools → llm`), else end the turn.  `oracle` gives the
inference response of each model turn and `fids` the fresh uuid of each;
`fuel` models the recursion bound the graph runner imposes.  Returns the
final history and every POST issued during the turn. -/
def runLoop (c : CalcClient) (oracle : ℕ → InferResponse) (fids : ℕ → String) :
    ℕ → ℕ → List Message → List Message × List PostCall
  | 0, _, msgs => (msgs, [])
  | fuel + 1, step, msgs =>
      let msgs1 := msgs ++ [inferMessage (fids step) (oracle step)]
      if should_continue msgs1 = "tools" then
        let r := call_tool c msgs1
        let rec2 := runLoop c oracle fids fuel (step + 1) r.1
        (rec2.1, r.2 ++ rec2.2)
      else (msgs1, [])

/-- The state-machine steps that touch the history: the user appends a
`HumanMessage` (`run.py`), the `llm` node appends the message built by
`call_inference_model`, and the `tools` node applies `call_tool`.  The
relation is deliberately more permissive than the compiled graph (any
interleaving is allowed), so an invariant of every `AgentStep`-reachable
history also holds for every history the graph can produce. -/
inductive AgentStep (c : CalcClient) : List Message → List Message → Prop
  | user (msgs : List Message) (u : String) :
      AgentStep c msgs (msgs ++ [Message.human u])
  | llm (msgs : List Message) (fid : String) (r : InferResponse) :
      AgentStep c msgs (msgs ++ [inferMessage fid r])
  | tools (msgs : List Message) :
      AgentStep c msgs (call_tool c msgs).1

/-- Histories reachable from the empty conversation. -/
inductive AgentReachable (c : CalcClient) : List Message → Prop
  | init : AgentReachable c []
  | step (msgs msgs2 : List Message) :
      AgentReachable c msgs → AgentStep c msgs msgs2 → AgentReachable c msgs2

/-- The pairing invariant: every tool-result message sits immediately
after an assistant message one of whose tool calls bears the id the
result answers. -/
def ToolPaired (msgs : List Message) : Prop :=
  ∀ i cnt cid, msgs[i]? = some (Message.tool cnt cid) →
    ∃ j a tcs, i = j + 1 ∧ msgs[j]? = some (Message.ai a tcs) ∧
      ∃ tc ∈ tcs, ToolCall.id tc = cid

/-!
## The `chat_loop` history truncation of `src/clean-mcp/mcp-client.py`
-/

/-- One message of the line-delimited client's conversation list: a plain
`{"role": ..., "content": ...}` dict. -/
structure ChatMsg where
  role : String
  content : String

/-- Source `mcp-client.py` lines 263–265: once the conversation holds more than
20 messages it is cut to its last 10 (`conversation[-10:]`). -/
def truncateHistory (c : List ChatMsg) : List ChatMsg :=
  if 20 < c.length then c.drop (c.length - 10) else c

/-- Model of `call_llm` lines 106–116: when tools are available, the system
context is merged into an existing leading system message, or inserted at
position 0. -/
def addSystemContext (sys : String) (c : List ChatMsg) : List ChatMsg :=
  match c with
  | m :: rest =>
      if m.role = "system" then ⟨"system", sys ++ "\n\n" ++ m.content⟩ :: rest
      else ⟨"system", sys⟩ :: m :: rest
  | [] => [⟨"system", sys⟩]

/-- One iteration of `chat_loop` (lines 236–265), past the `quit`/`tools`
branches: append the user message, let `call_llm` splice in the system
context when tools are available, append the assistant reply, then apply
the truncation rule.  The tool-suggestion block (lines 249–258) prints
tool output but never appends it to `conversation`, so no tool-result
message ever enters the history. -/
def chatStep (hasTools : Bool) (sys u resp : String) (c : List ChatMsg) : List ChatMsg :=
  let c1 := c ++ [⟨"user", u⟩]
  let c2 := if hasTools then addSystemContext sys c1 else c1
  truncateHistory (c2 ++ [⟨"assistant", resp⟩])

/-- Conversations reachable by iterating `chat_loop` from the empty list. -/
inductive ChatReachable : List ChatMsg → Prop
  | init : ChatReachable []
  | step (c : List ChatMsg) (hasTools : Bool) (sys u resp : String) :
      ChatReachable c → ChatReachable (chatStep hasTools sys u resp c)

/-!
## Discovery and construction, `src/clients/cli_agent/src/mcp_client.py`
-/

/-- Python `s.startswith(pre)`: a plain prefix check on the characters. -/
def pyStartsWith (s pre : String) : Bool :=
  pre.data.isPrefixOf s.data

/-- Extract tool names from the path keys of a fetched OpenAPI document,
`_discover_tools` lines 30–35: every path under the reserved `/tools/`
prefix contributes its trailing segment (`path.split("/")[-1]`). -/
def toolNamesOfPaths (paths : List String) : List String :=
  (paths.filter (fun p => pyStartsWith p "/tools/")).map
    (fun p => (p.splitOn "/").getLastD "")

/-- Outcome of a `_discover_tools` run: the discovered tool names (the
keys of `self.tools`), how many fetch attempts were made, and the
`time.sleep` calls issued (in seconds, in order). -/
structure DiscoveryResult where
  tools : List String
  attempts : ℕ
  sleeps : List ℕ

/-- The retry loop of `_discover_tools` lines 22–65: up to `fuel` (= 5)
attempts; a successful fetch populates the tools and returns, a
`RequestException` (modelled as `none`) sleeps 2 seconds and retries;
exhausting the loop leaves the tool set empty and merely logs — nothing is
raised. -/
def discoverAux (fetch : ℕ → Option (List String)) : ℕ → ℕ → List ℕ → DiscoveryResult
  | attempt, 0, sleeps => ⟨[], attempt, sleeps⟩
  | attempt, fuel + 1, sleeps =>
      match fetch attempt with
      | some paths => ⟨toolNamesOfPaths paths, attempt + 1, sleeps⟩
      | none => discoverAux fetch (attempt + 1) fuel (sleeps ++ [2])

/-- Model of `_discover_tools`: `for i in range(5)` with a 2-second sleep after
each failed attempt. -/
def discover_tools (fetch : ℕ → Option (List String)) : DiscoveryResult :=
  discoverAux fetch 0 5 []

/-- Python `url.rstrip("/")`: remove every trailing slash. -/
def rstripSlashes (s : String) : String :=
  String.mk (s.data.reverse.dropWhile (fun c => c = '/')).reverse

/-- The constructed client state `MCPClient.__init__` leaves behind. -/
structure InitState where
  serverUrl : String
  discovery : DiscoveryResult

/-- Model of `MCPClient.__init__`, `mcp_client.py` lines 9–15: a URL not starting
with `http` raises `ValueError` before anything else runs; otherwise the
stored URL is the argument with trailing slashes stripped and discovery
runs exactly once, inside the constructor. -/
def MCPClient_init (server_url : String) (fetch : ℕ → Option (List String)) :
    Except String InitState :=
  if ¬ pyStartsWith server_url "http" then
    .error "Server URL must include http:// or https://"
  else
    .ok ⟨rstripSlashes server_url, discover_tools fetch⟩

/-- A concrete calculator client used by witness theorems: both arithmetic
tools registered, every POST answered by the string `3.0`. -/
def calcClientEx : CalcClient :=
  ⟨["add", "subtract"], "http://calculator_server:8000", fun _ _ => "3.0"⟩

/-- A client whose discovery found no tools, as happens after exhausted
retries (claim C5). -/
def emptyCalcClient : CalcClient :=
  ⟨[], "http://calculator_server:8000", fun _ _ => "3.0"⟩

/-!
## Theorems
-/

theorem toolPaired_nil : ToolPaired [] := by
  intro i cnt cid h
  simp at h

theorem toolPaired_append_nontool {msgs : List Message} {m : Message}
    (hinv : ToolPaired msgs) (hm : isToolResult m = false) :
    ToolPaired (msgs ++ [m]) := by
  intro i cnt cid h
  rcases lt_or_ge i msgs.length with hi | hi
  · rw [List.getElem?_append, if_pos hi] at h
    obtain ⟨j, a, tcs, hj, hget, htc⟩ := hinv i cnt cid h
    refine ⟨j, a, tcs, hj, ?_, htc⟩
    rw [List.getElem?_append, if_pos (by omega)]
    exact hget
  · rcases eq_or_lt_of_le hi with hi2 | hi2
    · rw [← hi2, List.getElem?_concat_length] at h
      have hm2 : m = Message.tool cnt cid := by simpa using h
      rw [hm2] at hm
      simp [isToolResult] at hm
    · rw [List.getElem?_eq_none (by simp; omega)] at h
      exact absurd h (by simp)

theorem toolPaired_append_result {msgs : List Message} {a : String}
    {tcs : List ToolCall} {tc : ToolCall} {cnt : String}
    (hinv : ToolPaired msgs) (hlast : msgs.getLast? = some (Message.ai a tcs))
    (htc : tc ∈ tcs) :
    ToolPaired (msgs ++ [Message.tool cnt tc.id]) := by
  have hne : msgs ≠ [] := by
    intro hnil
    rw [hnil] at hlast
    simp at hlast
  have hlen : 0 < msgs.length := List.length_pos.mpr hne
  intro i cnt2 cid h
  rcases lt_or_ge i msgs.length with hi | hi
  · rw [List.getElem?_append, if_pos hi] at h
    obtain ⟨j, a2, tcs2, hj, hget, htc2⟩ := hinv i cnt2 cid h
    refine ⟨j, a2, tcs2, hj, ?_, htc2⟩
    rw [List.getElem?_append, if_pos (by omega)]
    exact hget
  · rcases eq_or_lt_of_le hi with hi2 | hi2
    · rw [← hi2, List.getElem?_concat_length] at h
      have hids : cnt = cnt2 ∧ tc.id = cid := by
        have := Option.some.inj h
        exact ⟨(Message.tool.inj this).1, (Message.tool.inj this).2⟩
      refine ⟨msgs.length - 1, a, tcs, by omega, ?_, tc, htc, hids.2⟩
      rw [List.getElem?_append, if_pos (by omega)]
      rw [List.getLast?_eq_getElem?] at hlast
      exact hlast
    · rw [List.getElem?_eq_none (by simp; omega)] at h
      exact absurd h (by simp)

theorem inferMessage_shape (fid : String) (r : InferResponse) :
    ∃ a tcs, inferMessage fid r = Message.ai a tcs := by
  cases r with
  | err s => exact ⟨_, _, rfl⟩
  | ok content tcs =>
      cases tcs with
      | nil =>
          cases h : detectEmbedded fid content with
          | none => exact ⟨content, [], by simp [inferMessage, h]⟩
          | some tc => exact ⟨"", [tc], by simp [inferMessage, h]⟩
      | cons tc rest => exact ⟨"", tc :: rest, rfl⟩

theorem call_tool_cases (c : CalcClient) (msgs : List Message) :
    (call_tool c msgs).1 = msgs ∨
    ∃ a tc rest cnt, msgs.getLast? = some (Message.ai a (tc :: rest)) ∧
      (call_tool c msgs).1 = msgs ++ [Message.tool cnt tc.id] := by
  unfold call_tool
  cases hlast : msgs.getLast? with
  | none => left; rfl
  | some m =>
      cases m with
      | human s => left; rfl
      | tool s tid => left; rfl
      | ai a tcs =>
          cases tcs with
          | nil => left; rfl
          | cons tc rest =>
              right
              exact ⟨a, tc, rest, (call_tool_result c tc).1, rfl, rfl⟩

/-- C1.  Pairing invariant: in every history reachable by the state
machine of `agent.py`, every tool-result message immediately follows an
assistant message one of whose tool calls carries exactly the id the
result references; moreover the tool node either leaves the history
unchanged (its guard, lines 140–141) or appends one tool-result copying
the first tool call's id of the assistant message it follows. -/
theorem C1_pairing_invariant (c : CalcClient) :
    (∀ msgs, AgentReachable c msgs → ToolPaired msgs) ∧
    (∀ msgs, (call_tool c msgs).1 = msgs ∨
      ∃ a tc rest cnt, msgs.getLast? = some (Message.ai a (tc :: rest)) ∧
        (call_tool c msgs).1 = msgs ++ [Message.tool cnt tc.id]) := by
  constructor
  · intro msgs h
    induction h with
    | init => exact toolPaired_nil
    | step msgs msgs2 _ hstep ih =>
        cases hstep with
        | user u => exact toolPaired_append_nontool ih rfl
        | llm fid r =>
            obtain ⟨a, tcs, heq⟩ := inferMessage_shape fid r
            rw [heq]
            exact toolPaired_append_nontool ih rfl
        | tools =>
            rcases call_tool_cases c msgs with hsame | ⟨a, tc, rest, cnt, hlast, happ⟩
            · rw [hsame]; exact ih
            · rw [happ]
              exact toolPaired_append_result ih hlast (List.mem_cons_self tc rest)
  · exact call_tool_cases c

/-- Witness for C1 at a concrete three-message history produced by one
user turn, one model turn requesting `add(a=1,b=2)`, and one tool turn. -/
theorem C1_pairing_witness :
    ToolPaired [Message.human "add 1 and 2",
      Message.ai "" [⟨"call_1", "add", [("a", JVal.num 1), ("b", JVal.num 2)]⟩],
      Message.tool "3.0" "call_1"] := by
  have h1 : AgentReachable calcClientEx [Message.human "add 1 and 2"] :=
    .step _ _ .init (.user [] "add 1 and 2")
  have h2 : AgentReachable calcClientEx
      [Message.human "add 1 and 2",
       Message.ai "" [⟨"call_1", "add", [("a", JVal.num 1), ("b", JVal.num 2)]⟩]] :=
    .step _ _ h1
      (.llm _ "call_1" (.ok "" [⟨"call_1", "add", [("a", JVal.num 1), ("b", JVal.num 2)]⟩]))
  have hcall : (call_tool calcClientEx
      [Message.human "add 1 and 2",
       Message.ai "" [⟨"call_1", "add", [("a", JVal.num 1), ("b", JVal.num 2)]⟩]]).1 =
      [Message.human "add 1 and 2",
       Message.ai "" [⟨"call_1", "add", [("a", JVal.num 1), ("b", JVal.num 2)]⟩],
       Message.tool "3.0" "call_1"] := rfl
  have h3 := AgentReachable.step _ _ h2 (.tools _)
  rw [hcall] at h3
  exact (C1_pairing_invariant calcClientEx).1 _ h3

theorem discoverAux_all_fail (fetch : ℕ → Option (List String))
    (h : ∀ i, fetch i = none) :
    ∀ (fuel attempt : ℕ) (sleeps : List ℕ),
      discoverAux fetch attempt fuel sleeps =
        ⟨[], attempt + fuel, sleeps ++ List.replicate fuel 2⟩ := by
  intro fuel
  induction fuel with
  | zero => intro attempt sleeps; simp [discoverAux]
  | succ n ih =>
      intro attempt sleeps
      rw [show discoverAux fetch attempt (n + 1) sleeps =
            discoverAux fetch (attempt + 1) n (sleeps ++ [2]) by
          simp only [discoverAux, h attempt]]
      rw [ih (attempt + 1) (sleeps ++ [2])]
      have h1 : attempt + 1 + n = attempt + (n + 1) := by omega
      have h2 : sleeps ++ [2] ++ List.replicate n 2 = sleeps ++ List.replicate (n + 1) 2 := by
        rw [List.append_assoc]
        rfl
      rw [h1, h2]

/-- C5.  Discovery retry bound, `mcp_client.py` lines 17–65: when every
fetch of the OpenAPI document fails, `_discover_tools` makes exactly 5
attempts, sleeping 2 seconds after each failure, then returns with the
tool set still empty and nothing raised, so a client of that endpoint
still constructs and reports zero tools. -/
theorem C5_discovery_retry (fetch : ℕ → Option (List String))
    (h : ∀ i, fetch i = none) :
    discover_tools fetch = ⟨[], 5, [2, 2, 2, 2, 2]⟩ ∧
    MCPClient_init "http://calculator_server:8000" fetch =
      Except.ok ⟨"http://calculator_server:8000", ⟨[], 5, [2, 2, 2, 2, 2]⟩⟩ := by
  have h5 : discover_tools fetch = ⟨[], 5, [2, 2, 2, 2, 2]⟩ := by
    rw [discover_tools, discoverAux_all_fail fetch h 5 0 []]
    rfl
  refine ⟨h5, ?_⟩
  rw [MCPClient_init,
    if_neg (by simp [show pyStartsWith "http://calculator_server:8000" "http" = true from rfl])]
  rw [h5]
  rfl

/-- Witness for C5: the always-failing fetch. -/
theorem C5_discovery_retry_witness :
    discover_tools (fun _ => none) = ⟨[], 5, [2, 2, 2, 2, 2]⟩ :=
  (C5_discovery_retry (fun _ => none) (fun _ => rfl)).1

/-- C10.  `MCPClient.__init__`, `mcp_client.py` lines 9–15: a URL not
starting with `http` is rejected with a `ValueError` whatever the network
would answer (so before any network activity); an accepted URL is stored
with its trailing slashes stripped — the original URL is exactly the
stored one followed by some number of slashes — and the tool set of the
fresh client is exactly one discovery run's result. -/
theorem C10_client_init (server_url : String) (fetch : ℕ → Option (List String)) :
    (pyStartsWith server_url "http" = false →
       ∀ f : ℕ → Option (List String),
         MCPClient_init server_url f =
           Except.error "Server URL must include http:// or https://") ∧
    (pyStartsWith server_url "http" = true →
       MCPClient_init server_url fetch =
         Except.ok ⟨rstripSlashes server_url, discover_tools fetch⟩) ∧
    (∃ k, server_url.data = (rstripSlashes server_url).data ++ List.replicate k '/') := by
  refine ⟨fun h f => by simp [MCPClient_init, h], fun h => by simp [MCPClient_init, h], ?_⟩
  refine ⟨(server_url.data.reverse.takeWhile (fun c => c = '/')).length, ?_⟩
  have hrep : server_url.data.reverse.takeWhile (fun c => c = '/') =
      List.replicate (server_url.data.reverse.takeWhile (fun c => c = '/')).length '/' :=
    List.eq_replicate_of_mem (fun b hb => by simpa using List.mem_takeWhile_imp hb)
  have hsplit : server_url.data =
      (server_url.data.reverse.dropWhile (fun c => c = '/')).reverse ++
      (server_url.data.reverse.takeWhile (fun c => c = '/')).reverse := by
    conv_lhs => rw [← List.reverse_reverse server_url.data,
      ← List.takeWhile_append_dropWhile (p := fun c => c = '/') (l := server_url.data.reverse)]
    rw [List.reverse_append]
  have h2 : (server_url.data.reverse.takeWhile (fun c => c = '/')).reverse =
      List.replicate (server_url.data.reverse.takeWhile (fun c => c = '/')).length '/' := by
    conv_lhs => rw [hrep]
    rw [List.reverse_replicate]
  calc server_url.data
      = (server_url.data.reverse.dropWhile (fun c => c = '/')).reverse ++
        (server_url.data.reverse.takeWhile (fun c => c = '/')).reverse := hsplit
    _ = (rstripSlashes server_url).data ++
        List.replicate (server_url.data.reverse.takeWhile (fun c => c = '/')).length '/' := by
        rw [h2]
        rfl

/-- Witness for C10: one rejected URL, one accepted URL with trailing
slashes. -/
theorem C10_client_init_witness :
    MCPClient_init "ftp://host" (fun _ => none) =
      Except.error "Server URL must include http:// or https://" ∧
    MCPClient_init "http://calculator_server:8000///" (fun _ => none) =
      Except.ok ⟨"http://calculator_server:8000", discover_tools (fun _ => none)⟩ := by
  constructor
  · exact (C10_client_init "ftp://host" (fun _ => none)).1 (by rfl) (fun _ => none)
  · have h := (C10_client_init "http://calculator_server:8000///" (fun _ => none)).2.1 (by rfl)
    rw [h]
    rfl

/-- C7.  Tool-spec attachment, `agent.py` lines 84–93: the request carries
the full hardcoded tool list with `tool_choice = "auto"` exactly when the
immediately preceding message is not a tool result, and the decision is a
function of that last message's kind alone. -/
theorem C7_tool_spec_attachment :
    (∀ (msgs : List Message) (m : Message),
        requestTools (msgs ++ [m]) =
          if isToolResult m then none else some (agentTools, "auto")) ∧
    (∀ (msgs1 msgs2 : List Message) (m1 m2 : Message),
        isToolResult m1 = isToolResult m2 →
        requestTools (msgs1 ++ [m1]) = requestTools (msgs2 ++ [m2])) := by
  have hpart : ∀ (msgs : List Message) (m : Message),
      requestTools (msgs ++ [m]) =
        if isToolResult m then none else some (agentTools, "auto") := by
    intro msgs m
    simp only [requestTools, should_send_tools, List.getLast?_concat]
    cases hm : isToolResult m <;> simp [hm]
  exact ⟨hpart, fun msgs1 msgs2 m1 m2 h => by rw [hpart, hpart, h]⟩

/-- Witness for C7: specs withheld after a tool result, attached after a
plain assistant message regardless of what came before. -/
theorem C7_tool_spec_attachment_witness :
    requestTools [Message.human "hi", Message.tool "3.0" "call_1"] = none ∧
    requestTools [Message.human "hi", Message.ai "done" []] =
      requestTools [Message.tool "3.0" "call_0", Message.ai "" []] := by
  constructor
  · have h := C7_tool_spec_attachment.1 [Message.human "hi"] (Message.tool "3.0" "call_1")
    simpa using h
  · exact C7_tool_spec_attachment.2 [Message.human "hi"] [Message.tool "3.0" "call_0"]
      (Message.ai "done" []) (Message.ai "" []) rfl

/-- C8.  Transport-error recovery on a model turn, `agent.py` lines
95–99: when the inference transport fails (returns an error string), the
appended message is a synthetic assistant message carrying the fixed
user-visible error text and no tool call, `should_continue` routes to
`end` (the turn is Answered), no tool POST happens, and the loop returns
normally — the conversation is not aborted. -/
theorem C8_transport_error (c : CalcClient) (oracle : ℕ → InferResponse)
    (fids : ℕ → String) (msgs : List Message) (fuel step : ℕ) (e : String)
    (h : oracle step = InferResponse.err e) :
    runLoop c oracle fids (fuel + 1) step msgs =
      (msgs ++ [Message.ai "I\x27m sorry, I encountered an error. Please check the logs." []],
       []) ∧
    should_continue (msgs ++ [inferMessage (fids step) (oracle step)]) = "end" := by
  have hmsg : inferMessage (fids step) (oracle step) =
      Message.ai "I\x27m sorry, I encountered an error. Please check the logs." [] := by
    rw [h]
    rfl
  have hsc : ∀ a : String, should_continue (msgs ++ [Message.ai a []]) = "end" := by
    intro a
    simp [should_continue, List.getLast?_concat]
  refine ⟨?_, by rw [hmsg]; exact hsc _⟩
  simp only [runLoop, hmsg, hsc]
  simp

/-- Witness for C8: a refused connection on the first model turn of a
fresh conversation. -/
theorem C8_transport_error_witness :
    runLoop calcClientEx (fun _ => InferResponse.err "connection refused")
        (fun _ => "call_1") 1 0 [Message.human "hi"] =
      ([Message.human "hi",
        Message.ai "I\x27m sorry, I encountered an error. Please check the logs." []],
       []) :=
  (C8_transport_error calcClientEx (fun _ => InferResponse.err "connection refused")
    (fun _ => "call_1") [Message.human "hi"] 0 0 "connection refused" rfl).1

theorem mem_truncateHistory {m : ChatMsg} {c : List ChatMsg}
    (h : m ∈ truncateHistory c) : m ∈ c := by
  unfold truncateHistory at h
  split at h
  · exact List.drop_subset _ _ h
  · exact h

theorem addSystemContext_mem (sys : String) (c : List ChatMsg) :
    ∀ m ∈ addSystemContext sys c, m.role = "system" ∨ m ∈ c := by
  cases c with
  | nil =>
      intro m hm
      simp [addSystemContext] at hm
      left
      rw [hm]
  | cons hd tl =>
      intro m hm
      by_cases hrole : hd.role = "system"
      · simp [addSystemContext, hrole] at hm
        rcases hm with hm | hm
        · left; rw [hm]
        · right; exact List.mem_cons_of_mem _ hm
      · simp [addSystemContext, hrole] at hm
        rcases hm with hm | hm
        · left; rw [hm]
        · right; exact List.mem_cons.mpr hm

/-- C6.  Truncation safety, `mcp-client.py` lines 262–265: whenever the
conversation exceeds the ceiling of 20 messages it is cut, in one step, to
exactly the most recent 10; and every conversation this chat loop can
reach consists solely of user, assistant and system messages — it contains
no tool-result message at all, so no truncation can ever separate a
tool-call/tool-result pair. -/
theorem C6_truncation_safety :
    (∀ c : List ChatMsg, 20 < c.length →
        (truncateHistory c).length = 10 ∧
        truncateHistory c = c.drop (c.length - 10)) ∧
    (∀ c, ChatReachable c →
        ∀ m ∈ c, m.role = "user" ∨ m.role = "assistant" ∨ m.role = "system") := by
  constructor
  · intro c h
    unfold truncateHistory
    rw [if_pos h]
    exact ⟨by rw [List.length_drop]; omega, rfl⟩
  · intro c h
    induction h with
    | init => intro m hm; simp at hm
    | step c hasTools sys u resp _ ih =>
        intro m hm
        have hm2 := mem_truncateHistory hm
        rcases List.mem_append.mp hm2 with hm3 | hm3
        · cases hasTools with
          | true =>
              have hm3b : m ∈ addSystemContext sys (c ++ [⟨"user", u⟩]) := by
                simpa using hm3
              rcases addSystemContext_mem sys (c ++ [⟨"user", u⟩]) m hm3b with hsys | hm4
              · right; right; exact hsys
              · rcases List.mem_append.mp hm4 with hm5 | hm5
                · exact ih m hm5
                · left
                  rw [show m = (⟨"user", u⟩ : ChatMsg) by simpa using hm5]
          | false =>
              have hm3b : m ∈ c ++ [(⟨"user", u⟩ : ChatMsg)] := by
                simpa using hm3
              rcases List.mem_append.mp hm3b with hm5 | hm5
              · exact ih m hm5
              · left
                rw [show m = (⟨"user", u⟩ : ChatMsg) by simpa using hm5]
        · right; left
          rw [show m = (⟨"assistant", resp⟩ : ChatMsg) by simpa using hm3]

/-- Witness for C6: a 21-message history truncates to length 10, and a
conversation reached by one loop iteration has only the three benign
roles. -/
theorem C6_truncation_safety_witness :
    (truncateHistory (List.replicate 21 (⟨"user", "x"⟩ : ChatMsg))).length = 10 ∧
    ∀ m ∈ chatStep true "tool context" "hello" "hi there" [],
      m.role = "user" ∨ m.role = "assistant" ∨ m.role = "system" := by
  constructor
  · exact (C6_truncation_safety.1 (List.replicate 21 ⟨"user", "x"⟩) (by simp)).1
  · exact C6_truncation_safety.2 _
      (ChatReachable.step [] true "tool context" "hello" "hi there" ChatReachable.init)

/-- C2 counterexample: on the exact Scenario-C content — a JSON tool call
followed by ` ;some trailing note` — the state machine extracts no tool
call at all.  `json.loads` rejects the trailing text, the exception is
swallowed, and the content is kept verbatim as a plain final answer,
contrary to the claimed split-at-terminator extraction of
`subtract(a=5,b=2)`. -/
theorem C2_embedded_counterexample :
    inferMessage "call_1" (InferResponse.ok
      "\x7b\"name\":\"subtract\",\"parameters\":\x7b\"a\":5,\"b\":2\x7d\x7d ;some trailing note"
      []) =
    Message.ai
      "\x7b\"name\":\"subtract\",\"parameters\":\x7b\"a\":5,\"b\":2\x7d\x7d ;some trailing note"
      [] := by
  rfl

/-- C2 (amended).  Embedded tool-call detection, `agent.py` lines
111–133: when the model returned no structured call and the entire
textual content (no splitting — any trailing text beyond the one JSON
value makes `json.loads` fail and the content a plain answer) parses as a
JSON object with both a `name` and a `parameters` key, the machine forms
an implicit call with that name and those parameters, the latter re-parsed
with `json.loads` when delivered as a string. -/
theorem C2_embedded_detection (fid content nm : String)
    (fields args : List (String × JVal))
    (h1 : loads content = some (JVal.obj fields))
    (h2 : lookupField fields "name" = some (JVal.str nm))
    (h3 : lookupField fields "parameters" = some (JVal.obj args) ∨
          ∃ s, lookupField fields "parameters" = some (JVal.str s) ∧
               loads s = some (JVal.obj args)) :
    inferMessage fid (InferResponse.ok content []) =
      Message.ai "" [⟨fid, nm, args⟩] := by
  have hd : detectEmbedded fid content = some ⟨fid, nm, args⟩ := by
    rcases h3 with h3 | ⟨s, h3, h4⟩
    · simp [detectEmbedded, h1, h2, h3]
    · simp [detectEmbedded, h1, h2, h3, h4]
  simp [inferMessage, hd]

/-- Witness for C2: the Scenario-C call without the trailing note parses
and produces the implicit `subtract(a=5,b=2)` call. -/
theorem C2_embedded_detection_witness :
    inferMessage "call_1" (InferResponse.ok
      "\x7b\"name\":\"subtract\",\"parameters\":\x7b\"a\":5,\"b\":2\x7d\x7d" []) =
    Message.ai "" [⟨"call_1", "subtract", [("a", JVal.num 5), ("b", JVal.num 2)]⟩] :=
  C2_embedded_detection "call_1"
    "\x7b\"name\":\"subtract\",\"parameters\":\x7b\"a\":5,\"b\":2\x7d\x7d" "subtract"
    [("name", JVal.str "subtract"),
     ("parameters", JVal.obj [("a", JVal.num 5), ("b", JVal.num 2)])]
    [("a", JVal.num 5), ("b", JVal.num 2)]
    (by rfl) (by rfl) (Or.inl (by rfl))

/-- C3 counterexample: the validation failure message is one fixed string
per tool — the histories where `a` is the non-coercible parameter and
where `b` is produce the identical message, so the error cannot be naming
the offending parameter, contrary to the claim. -/
theorem C3_validator_counterexample :
    (call_tool calcClientEx
        [Message.ai "" [⟨"call_1", "add", [("a", JVal.str "x"), ("b", JVal.num 2)]⟩]]).1 =
      [Message.ai "" [⟨"call_1", "add", [("a", JVal.str "x"), ("b", JVal.num 2)]⟩],
       Message.tool "Error: Invalid parameters for tool \x27add\x27. Parameters must be numbers."
         "call_1"] ∧
    (call_tool calcClientEx
        [Message.ai "" [⟨"call_2", "add", [("a", JVal.num 1), ("b", JVal.str "x")]⟩]]).1 =
      [Message.ai "" [⟨"call_2", "add", [("a", JVal.num 1), ("b", JVal.str "x")]⟩],
       Message.tool "Error: Invalid parameters for tool \x27add\x27. Parameters must be numbers."
         "call_2"] ∧
    (call_tool calcClientEx
        [Message.ai "" [⟨"call_1", "add", [("a", JVal.str "x"), ("b", JVal.num 2)]⟩]]).2 = [] :=
  ⟨rfl, rfl, rfl⟩

/-- C3 (amended).  Validator coercion, `agent.py` lines 149–158: the
numeric-looking string coerces — `add` called with `{a:"3", b:2}` is
executed with exactly one POST carrying `{a:3.0, b:2.0}` — and any
non-coercible value for `a` or for `b` yields the fixed error message
naming the tool (but not which parameter failed), with no POST and no
crash. -/
theorem C3_validator (c : CalcClient) (msgs : List Message) (cnt id : String)
    (rest : List ToolCall) :
    (c.tools.contains "add" = true →
       call_tool c (msgs ++ [Message.ai cnt
           (⟨id, "add", [("a", JVal.str "3"), ("b", JVal.num 2)]⟩ :: rest)]) =
         (msgs ++ [Message.ai cnt (⟨id, "add", [("a", JVal.str "3"), ("b", JVal.num 2)]⟩ :: rest),
                   Message.tool (c.post "add" [("a", JVal.num 3), ("b", JVal.num 2)]) id],
          [⟨"add", [("a", JVal.num 3), ("b", JVal.num 2)]⟩])) ∧
    (∀ (nm : String) (args : List (String × JVal)),
       (nm = "add" ∨ nm = "subtract") →
       (pyFloat (lookupD args "a" (JVal.num 0)) = none ∨
        pyFloat (lookupD args "b" (JVal.num 0)) = none) →
       call_tool c (msgs ++ [Message.ai cnt (⟨id, nm, args⟩ :: rest)]) =
         (msgs ++ [Message.ai cnt (⟨id, nm, args⟩ :: rest),
                   Message.tool (invalidParamsMsg nm) id],
          [])) := by
  constructor
  · intro hreg
    have hmem : "add" ∈ c.tools := by simpa using hreg
    have ha : pyFloat (lookupD [("a", JVal.str "3"), ("b", JVal.num 2)] "a" (JVal.num 0)) =
        some 3 := by rfl
    have hb : pyFloat (lookupD [("a", JVal.str "3"), ("b", JVal.num 2)] "b" (JVal.num 0)) =
        some 2 := by rfl
    simp only [call_tool, List.getLast?_concat, call_tool_result, ha, hb]
    simp [clientCallTool, hmem]
  · intro nm args hnm hfail
    simp only [call_tool, List.getLast?_concat, call_tool_result, if_pos hnm]
    cases ha : pyFloat (lookupD args "a" (JVal.num 0)) with
    | none => simp
    | some qa =>
        cases hb : pyFloat (lookupD args "b" (JVal.num 0)) with
        | none => simp
        | some qb =>
            rw [ha, hb] at hfail
            rcases hfail with h | h <;> exact absurd h (by simp)

/-- Witness for C3: the coercion case on the concrete client. -/
theorem C3_validator_witness :
    call_tool calcClientEx
        [Message.ai "" [⟨"call_1", "add", [("a", JVal.str "3"), ("b", JVal.num 2)]⟩]] =
      ([Message.ai "" [⟨"call_1", "add", [("a", JVal.str "3"), ("b", JVal.num 2)]⟩],
        Message.tool "3.0" "call_1"],
       [⟨"add", [("a", JVal.num 3), ("b", JVal.num 2)]⟩]) := by
  have h := (C3_validator calcClientEx [] "" "call_1" []).1 (by rfl)
  exact h

/-- C4 counterexample: when the registry lacks the built-in name `add`
(as after exhausted discovery retries, claim C5), a detected `add` call
yields the client's not-found-on-server message — not the claimed exact
text `Error: Tool 'add' not found.` — though still with no POST. -/
theorem C4_toolnotfound_counterexample :
    call_tool emptyCalcClient
        [Message.ai "" [⟨"call_1", "add", [("a", JVal.num 1), ("b", JVal.num 2)]⟩]] =
      ([Message.ai "" [⟨"call_1", "add", [("a", JVal.num 1), ("b", JVal.num 2)]⟩],
        Message.tool
          "Error: Tool \x27add\x27 not found on server http://calculator_server:8000."
          "call_1"],
       []) ∧
    ¬("Error: Tool \x27add\x27 not found on server http://calculator_server:8000." =
        toolNotFoundMsg "add") := by
  exact ⟨rfl, by decide⟩

/-- C4 (amended).  ToolNotFound handling, `agent.py` lines 159–166: a
detected call whose name is neither a built-in validated name
(`add`/`subtract`) nor in the registry appends a synthetic tool-result
with text exactly `Error: Tool '<name>' not found.`, performs no POST, and
the graph loop re-invokes the model with that error in the history; a
built-in name that is absent from the registry instead gets the client's
not-found-on-server text (see the counterexample), also without a POST. -/
theorem C4_toolnotfound (c : CalcClient) (msgs : List Message) (cnt id nm : String)
    (args : List (String × JVal)) (rest : List ToolCall)
    (h1 : ¬(nm = "add" ∨ nm = "subtract")) (h2 : c.tools.contains nm = false) :
    call_tool c (msgs ++ [Message.ai cnt (⟨id, nm, args⟩ :: rest)]) =
      (msgs ++ [Message.ai cnt (⟨id, nm, args⟩ :: rest),
                Message.tool (toolNotFoundMsg nm) id],
       []) ∧
    (∀ (oracle : ℕ → InferResponse) (fids : ℕ → String) (fuel step : ℕ),
       oracle step = InferResponse.ok "" [⟨id, nm, args⟩] →
       runLoop c oracle fids (fuel + 1 + 1) step msgs =
         runLoop c oracle fids (fuel + 1) (step + 1)
           (msgs ++ [Message.ai "" [⟨id, nm, args⟩],
                     Message.tool (toolNotFoundMsg nm) id])) := by
  have hcall : ∀ (cnt2 : String) (rest2 : List ToolCall),
      call_tool c (msgs ++ [Message.ai cnt2 (⟨id, nm, args⟩ :: rest2)]) =
        (msgs ++ [Message.ai cnt2 (⟨id, nm, args⟩ :: rest2),
                  Message.tool (toolNotFoundMsg nm) id],
         []) := by
    intro cnt2 rest2
    simp only [call_tool, List.getLast?_concat, call_tool_result, if_neg h1, h2]
    simp
  refine ⟨hcall cnt rest, ?_⟩
  intro oracle fids fuel step horacle
  have hmsg : inferMessage (fids step) (oracle step) = Message.ai "" [⟨id, nm, args⟩] := by
    rw [horacle]
    rfl
  have hsc : should_continue (msgs ++ [Message.ai "" [⟨id, nm, args⟩]]) = "tools" := by
    simp [should_continue, List.getLast?_concat]
  conv_lhs => rw [runLoop]
  rw [hmsg, hsc]
  simp only [reduceIte]
  rw [hcall "" []]
  simp

/-- Witness for C4: the spec's Scenario D, `divide` absent from a registry
holding `add` and `subtract`. -/
theorem C4_toolnotfound_witness :
    call_tool calcClientEx
        [Message.ai "" [⟨"call_1", "divide", [("a", JVal.num 1), ("b", JVal.num 2)]⟩]] =
      ([Message.ai "" [⟨"call_1", "divide", [("a", JVal.num 1), ("b", JVal.num 2)]⟩],
        Message.tool "Error: Tool \x27divide\x27 not found." "call_1"],
       []) := by
  have h := (C4_toolnotfound calcClientEx [] "" "call_1" "divide"
    [("a", JVal.num 1), ("b", JVal.num 2)] [] (by decide) (by decide)).1
  exact h

/-- C9.  Missing-parameter defaulting, `agent.py` lines 150–158: an
`add`/`subtract` call whose arguments omit `a` (or `b`) is not rejected
for the missing required parameter — `args.get` silently substitutes `0`,
`float(0)` gives `0.0`, and the tool is executed with that default. -/
theorem C9_missing_param_default (c : CalcClient) (msgs : List Message)
    (cnt id nm : String) (args : List (String × JVal)) (rest : List ToolCall)
    (hnm : nm = "add" ∨ nm = "subtract") (hreg : c.tools.contains nm = true) :
    (lookupField args "a" = none →
       ∀ qb, pyFloat (lookupD args "b" (JVal.num 0)) = some qb →
       call_tool c (msgs ++ [Message.ai cnt (⟨id, nm, args⟩ :: rest)]) =
         (msgs ++ [Message.ai cnt (⟨id, nm, args⟩ :: rest),
                   Message.tool (c.post nm [("a", JVal.num 0), ("b", JVal.num qb)]) id],
          [⟨nm, [("a", JVal.num 0), ("b", JVal.num qb)]⟩])) ∧
    (lookupField args "b" = none →
       ∀ qa, pyFloat (lookupD args "a" (JVal.num 0)) = some qa →
       call_tool c (msgs ++ [Message.ai cnt (⟨id, nm, args⟩ :: rest)]) =
         (msgs ++ [Message.ai cnt (⟨id, nm, args⟩ :: rest),
                   Message.tool (c.post nm [("a", JVal.num qa), ("b", JVal.num 0)]) id],
          [⟨nm, [("a", JVal.num qa), ("b", JVal.num 0)]⟩])) := by
  have hmem : nm ∈ c.tools := by simpa using hreg
  constructor
  · intro ha qb hb
    have ha2 : pyFloat (lookupD args "a" (JVal.num 0)) = some 0 := by
      rw [lookupD, ha]
      rfl
    simp only [call_tool, List.getLast?_concat, call_tool_result, if_pos hnm, ha2, hb]
    simp [clientCallTool, hmem]
  · intro hb qa ha
    have hb2 : pyFloat (lookupD args "b" (JVal.num 0)) = some 0 := by
      rw [lookupD, hb]
      rfl
    simp only [call_tool, List.getLast?_concat, call_tool_result, if_pos hnm, ha, hb2]
    simp [clientCallTool, hmem]

/-- Witness for C9: `subtract` invoked with only `b` supplied gets
`a = 0.0` and is executed. -/
theorem C9_missing_param_default_witness :
    call_tool calcClientEx [Message.ai "" [⟨"call_1", "subtract", [("b", JVal.num 2)]⟩]] =
      ([Message.ai "" [⟨"call_1", "subtract", [("b", JVal.num 2)]⟩],
        Message.tool "3.0" "call_1"],
       [⟨"subtract", [("a", JVal.num 0), ("b", JVal.num 2)]⟩]) := by
  have h := (C9_missing_param_default calcClientEx [] "" "call_1" "subtract"
    [("b", JVal.num 2)] [] (Or.inr rfl) (by decide)).1 (by rfl) 2 (by rfl)
  exact h
